import Mathlib

/-!
Shallow embedding of `src/llvfs.py` (LLVFS manipulator): the asset-type
registry `AT`, the entry model `LLVFSEntry`, the store `LLVFS` with its
index-record codec, and `PathMap`.

Modelling conventions:
* Python `bytes` values are `List Nat` (each element a byte value).
* A 128-bit key (`uuid.UUID`) is represented by its 16 raw bytes.
* `datetime` access times are represented by their epoch seconds (`Nat`).
* Python dictionaries are represented as functions into `Option`.
* `struct` errors (out-of-range pack arguments, a buffer that is not a
  multiple of the record size) are represented with `Option` / `Except`.
* Wall-clock and randomness defaults (`datetime.datetime.now()`,
  `random.randint`) are external inputs: the embedding takes the access
  time and key as explicit arguments.
-/

/-- One row of `AT.asset_types`: the value tuple, keyed by the six
`asset_type_names` `("description", "typename", "humanname", "link",
"fetch", "know")` that `AT.__getitem__` zips it with. -/
structure ATEntry where
  description : String
  typename : String
  humanname : Option String
  link : Bool
  fetch : Bool
  know : Bool
deriving DecidableEq, Repr

/-- `AT.asset_types` from `src/llvfs.py` lines 49-79, in Python dict
insertion order (which `AT.__init__` relies on to build `cvars`). -/
def AT.asset_types : List (Int × ATEntry) := [
  (0,   ⟨"TEXTURE",      "texture",  some "texture",         true,  false, true⟩),
  (1,   ⟨"SOUND",        "sound",    some "sound",           true,  true,  true⟩),
  (2,   ⟨"CALLINGCARD",  "callcard", some "calling card",    true,  false, false⟩),
  (3,   ⟨"LANDMARK",     "landmark", some "landmark",        true,  true,  true⟩),
  (4,   ⟨"SCRIPT",       "script",   some "legacy script",   true,  false, false⟩),
  (5,   ⟨"CLOTHING",     "clothing", some "clothing",        true,  true,  true⟩),
  (6,   ⟨"OBJECT",       "object",   some "object",          true,  false, false⟩),
  (7,   ⟨"NOTECARD",     "notecard", some "note card",       true,  false, true⟩),
  (8,   ⟨"CATEGORY",     "category", some "folder",          true,  false, false⟩),
  (10,  ⟨"LSL_TEXT",     "lsltext",  some "lsl2 script",     true,  false, false⟩),
  (11,  ⟨"LSL_BYTECODE", "lslbyte",  some "lsl bytecode",    true,  false, false⟩),
  (12,  ⟨"TEXTURE_TGA",  "txtr_tga", some "tga texture",     true,  false, false⟩),
  (13,  ⟨"BODYPART",     "bodypart", some "body part",       true,  true,  true⟩),
  (17,  ⟨"SOUND_WAV",    "snd_wav",  some "sound",           true,  false, false⟩),
  (18,  ⟨"IMAGE_TGA",    "img_tga",  some "targa image",     true,  false, false⟩),
  (19,  ⟨"IMAGE_JPEG",   "jpeg",     some "jpeg image",      true,  false, false⟩),
  (20,  ⟨"ANIMATION",    "animatn",  some "animation",       true,  true,  true⟩),
  (21,  ⟨"GESTURE",      "gesture",  some "gesture",         true,  true,  true⟩),
  (22,  ⟨"SIMSTATE",     "simstate", some "simstate",        false, false, false⟩),
  (24,  ⟨"LINK",         "link",     some "sym link",        false, false, true⟩),
  (25,  ⟨"FOLDER_LINK",  "link_f",   some "sym folder link", false, false, true⟩),
  (49,  ⟨"MESH",         "mesh",     some "mesh",            false, false, false⟩),
  (40,  ⟨"WIDGET",       "widget",   some "widget",          false, false, false⟩),
  (45,  ⟨"PERSON",       "person",   some "person",          false, false, false⟩),
  (255, ⟨"UNKNOWN",      "invalid",  none,                   false, false, false⟩),
  (-2,  ⟨"NONE",         "-1",       none,                   false, false, false⟩)]

/-- `AT.__init__`: `cvars` is the tuple of canonical names (column 0 of
every row), in table order. -/
def AT.cvars : List String := AT.asset_types.map (fun p => p.2.description)

/-- `AT.__getitem__(k)`: if `k` is not a key of `asset_types` it is replaced
by `255`, then the row is returned as a dict (here: an `ATEntry`).  The
final fallback arm is unreachable because `255` is a key of the table. -/
def AT.getitem (k : Int) : ATEntry :=
  let k2 := if (AT.asset_types.lookup k).isSome then k else 255
  match AT.asset_types.lookup k2 with
  | some e => e
  | none => ⟨"UNKNOWN", "invalid", none, false, false, false⟩

/-- The error `AT.__getattr__` raises on a miss (`AttributeError`; the
spec's taxonomy calls it `UnknownAssetType`). -/
inductive ATError where
  | unknownAssetType : ATError
deriving DecidableEq, Repr

/-- `AT.__getattr__(k)` (the spec's `codeNamed`): if `k` is one of `cvars`
it returns `cvars.index(k)` — the POSITION of the name in the tuple, not
the table key the name was registered under — otherwise it raises. -/
def AT.codeNamed (k : String) : Except ATError Nat :=
  if k ∈ AT.cvars then .ok (AT.cvars.indexOf k) else .error .unknownAssetType

/-- `AT.fromFileExtension(v)`: first key of the table whose `typename`
column equals `v`, or `None`. -/
def AT.fromFileExtension (v : String) : Option Int :=
  (AT.asset_types.find? (fun p => p.2.typename == v)).map (fun p => p.1)

/-- `PathMap`: two Python dicts, modelled as lookup functions.
`pathMapping` maps a path to its key, `keyMapping` a key to its path. -/
structure PathMap where
  pathMapping : String → Option String
  keyMapping : String → Option String

/-- `PathMap.__init__` with no initial data: both dicts empty. -/
def PathMap.empty : PathMap :=
  { pathMapping := fun _ => none, keyMapping := fun _ => none }

/-- `PathMap.findPath(path)`: `pathMapping[path] if path in pathMapping
else None`.  Note the argument is a PATH and the result a key. -/
def PathMap.findPath (m : PathMap) (path : String) : Option String :=
  m.pathMapping path

/-- `PathMap.findKey(key)`: `keyMapping[key] if key in keyMapping else
None`.  Note the argument is a KEY and the result a path. -/
def PathMap.findKey (m : PathMap) (key : String) : Option String :=
  m.keyMapping key

/-- `PathMap.map(key, path)`: `pathMapping[path] = key` and
`keyMapping[key] = path` (dict assignment = pointwise overwrite). -/
def PathMap.map (m : PathMap) (key path : String) : PathMap :=
  { pathMapping := fun x => if x = path then some key else m.pathMapping x,
    keyMapping := fun x => if x = key then some path else m.keyMapping x }

/-- `math.ceil(n/1024)` for a natural `n` (the float division is exact in
the sizes the format admits). -/
def ceil1024 (n : Nat) : Nat := (n + 1023) / 1024

/-- Python `round(v/1024)` for natural `v`: nearest integer, halves to the
even neighbour (banker's rounding; `v/1024` is an exact binary float). -/
def pyRound1024 (v : Nat) : Nat :=
  let q := v / 1024
  let r := v % 1024
  if r < 512 then q
  else if 512 < r then q + 1
  else if q % 2 = 0 then q else q + 1

/-- `LLVFSEntry`'s fields.  `_size` and `_length` are the private backing
fields of the `size`/`length` properties. -/
structure LLVFSEntry where
  offset : Nat
  _size : Nat
  _length : Nat
  key : List Nat
  accesstime : Nat
  filetype : Nat
deriving DecidableEq, Repr

/-- `LLVFSEntry.__init__(offset, size, length, key, accesstime, filetype)`:
when `length` is `None` or `length < size`, it is recomputed as
`1024 * math.ceil(size/1024)`.  The `key = None` and `accesstime = None`
defaults draw on randomness and the wall clock and are therefore taken as
explicit arguments here. -/
def LLVFSEntry.init (offset size : Nat) (length : Option Nat)
    (key : List Nat) (accesstime : Nat) (filetype : Nat) : LLVFSEntry :=
  let len := match length with
    | none => 1024 * ceil1024 size
    | some l => if l < size then 1024 * ceil1024 size else l
  { offset := offset, _size := size, _length := len,
    key := key, accesstime := accesstime, filetype := filetype }

/-- The `size` property getter: returns `_size`. -/
def LLVFSEntry.size (e : LLVFSEntry) : Nat := e._size

/-- The `size` property setter: grows `_length` to the next multiple of
1024 when the new size exceeds it, then stores the new `_size`. -/
def LLVFSEntry.setSize (e : LLVFSEntry) (v : Nat) : LLVFSEntry :=
  if e._length < v then { e with _length := 1024 * ceil1024 v, _size := v }
  else { e with _size := v }

/-- The `length` property getter as the source writes it: it returns
`self._size` (not `self._length`). -/
def LLVFSEntry.length (e : LLVFSEntry) : Nat := e._size

/-- The `length` property setter: a value that is not a multiple of 1024
is rounded (Python `round`, half to even) to one; a value below `_size`
is replaced by the smallest multiple of 1024 that is `≥ _size`. -/
def LLVFSEntry.setLength (e : LLVFSEntry) (v : Nat) : LLVFSEntry :=
  let v2 := if v % 1024 ≠ 0 then 1024 * pyRound1024 v else v
  if v2 < e._size then { e with _length := 1024 * ceil1024 e._size }
  else { e with _length := v2 }

/-- Little-endian encoding of a `<I` (u32) field, as `struct.pack` lays it
out.  Callers check the `0 ≤ n < 2^32` range (out of range raises). -/
def encodeU32 (n : Nat) : List Nat :=
  [n % 256, n / 256 % 256, n / 65536 % 256, n / 16777216 % 256]

/-- Little-endian decoding of a `<I` (u32) field from its four bytes. -/
def decodeU32 (bs : List Nat) : Nat :=
  match bs with
  | [a, b, c, d] => a + 256 * b + 65536 * c + 16777216 * d
  | _ => 0

/-- Little-endian encoding of a `<H` (u16) field. -/
def encodeU16 (n : Nat) : List Nat := [n % 256, n / 256 % 256]

/-- Little-endian decoding of a `<H` (u16) field. -/
def decodeU16 (bs : List Nat) : Nat :=
  match bs with
  | [a, b] => a + 256 * b
  | _ => 0

/-- A `16s` field: `struct.pack` truncates the argument to 16 bytes or
pads it with zero bytes (a `uuid.UUID().bytes` argument is always exactly
16 bytes long). -/
def pack16s (key : List Nat) : List Nat :=
  key.take 16 ++ List.replicate (16 - key.length) 0

/-- One decoded record of `indexStruct = struct.Struct("<III16sHI")`:
offset, padded length, access time, 16 key bytes, file type, exact size. -/
structure RawRecord where
  offset : Nat
  length : Nat
  accesstime : Nat
  key : List Nat
  filetype : Nat
  size : Nat
deriving DecidableEq, Repr

/-- The 34 bytes `indexStruct.pack(offset, length, accesstime, key,
filetype, size)` produces (range checks aside). -/
def packBytes (offset length accesstime : Nat) (key : List Nat)
    (filetype size : Nat) : List Nat :=
  encodeU32 offset ++ encodeU32 length ++ encodeU32 accesstime ++
    pack16s key ++ encodeU16 filetype ++ encodeU32 size

/-- `indexStruct.pack` with its range checks: `struct.error` (here `none`)
when a `<I` argument is not a u32 or the `<H` argument is not a u16. -/
def packRecord (offset length accesstime : Nat) (key : List Nat)
    (filetype size : Nat) : Option (List Nat) :=
  if offset < 2 ^ 32 ∧ length < 2 ^ 32 ∧ accesstime < 2 ^ 32 ∧
      filetype < 2 ^ 16 ∧ size < 2 ^ 32 then
    some (packBytes offset length accesstime key filetype size)
  else none

/-- `indexStruct.unpack` on one 34-byte record: fields at byte offsets
0, 4, 8, 12, 28, 30.  The catch-all arm is unreachable under
`iter_unpack`, which only hands this function 34-byte chunks. -/
def decodeRecord : List Nat → RawRecord
  | a0 :: a1 :: a2 :: a3 :: b0 :: b1 :: b2 :: b3 ::
      c0 :: c1 :: c2 :: c3 :: rest =>
    { offset := decodeU32 [a0, a1, a2, a3]
      length := decodeU32 [b0, b1, b2, b3]
      accesstime := decodeU32 [c0, c1, c2, c3]
      key := rest.take 16
      filetype := decodeU16 ((rest.drop 16).take 2)
      size := decodeU32 ((rest.drop 18).take 4) }
  | _ => { offset := 0, length := 0, accesstime := 0, key := [],
           filetype := 0, size := 0 }

/-- The record-by-record walk of `indexStruct.iter_unpack`: successive
34-byte chunks.  The fuel argument (instantiated with the buffer length,
which bounds the number of chunks) keeps the recursion structural. -/
def iter_unpack : Nat → List Nat → List RawRecord
  | _, [] => []
  | 0, _ :: _ => []
  | f + 1, b :: bs =>
    decodeRecord ((b :: bs).take 34) :: iter_unpack f ((b :: bs).drop 34)

/-- All records of an index buffer whose length is a multiple of 34. -/
def parseRecords (bs : List Nat) : List RawRecord := iter_unpack bs.length bs

/-- The errors of the store (spec taxonomy): `corruptIndex` is the
`struct.error` that `iter_unpack` raises when the buffer length is not a
multiple of the 34-byte record size. -/
inductive VFSError where
  | corruptIndex : VFSError
deriving DecidableEq, Repr

/-- `struct.iter_unpack("<III16sHI", bs)`: `struct.error` unless the
buffer length is a multiple of 34, else every record in order. -/
def parseIndex (bs : List Nat) : Except VFSError (List RawRecord) :=
  if bs.length % 34 = 0 then .ok (parseRecords bs) else .error .corruptIndex

/-- The in-memory `LLVFS` store: the two file contents and the entry /
keymap lists `loadIndexFile` populates. -/
structure LLVFS where
  indexFile : List Nat
  dataFile : List Nat
  entries : List LLVFSEntry
  keymap : List (List Nat)
deriving Repr

/-- The entry `loadIndexFile` builds from one decoded record:
`LLVFSEntry(offset=e[0], length=e[1], accesstime=e[2], key=e[3],
filetype=e[4], size=e[5], vfs=self)`. -/
def recToEntry (r : RawRecord) : LLVFSEntry :=
  LLVFSEntry.init r.offset r.size (some r.length) r.key r.accesstime r.filetype

/-- `LLVFS(index, data, mode="w")`: write mode truncates both files and
loads nothing. -/
def LLVFS.initWrite : LLVFS :=
  { indexFile := [], dataFile := [], entries := [], keymap := [] }

/-- `LLVFS(index, data, mode="r")` on existing file contents `idx` /
`data`: `loadIndexFile` decodes the whole index into `entries` and
`keymap` in file order (or fails with the `struct.error`). -/
def loadStore (idx data : List Nat) : Except VFSError LLVFS :=
  match parseIndex idx with
  | .error e => .error e
  | .ok recs =>
    .ok { indexFile := idx, dataFile := data,
          entries := recs.map recToEntry,
          keymap := recs.map (fun r => r.key) }

/-- `LLVFS.read(offset, size)`: seek to `offset` and `read(size)`.  A
Python file read returns AT MOST `size` bytes — fewer when the file ends
early — and never raises for a short read. -/
def LLVFS.read (s : LLVFS) (offset size : Nat) : List Nat :=
  (s.dataFile.drop offset).take size

/-- `LLVFS.fromKey(key)`: `entries[keymap.index(key)]` when the key is in
`keymap` (Python `list.index` returns the FIRST position), else `None`.
The key argument is the 16 raw bytes (string keys are parsed to the same
128-bit value by `uuid.UUID` before the lookup). -/
def LLVFS.fromKey (s : LLVFS) (key : List Nat) : Option LLVFSEntry :=
  if key ∈ s.keymap then s.entries[s.keymap.indexOf key]? else none

/-- `LLVFS.add(key, filetype, data, accesstime)`: pads the payload to
`length = 1024 * math.ceil(len(data)/1024)`, appends payload plus zero
padding to the data file at the current end (`tell()`), and appends one
packed record to the index file.  `entries`/`keymap` are not updated.
`none` models the `struct.error` of an out-of-range pack argument. -/
def LLVFS.add (s : LLVFS) (key : List Nat) (filetype : Nat)
    (data : List Nat) (accesstime : Nat) : Option LLVFS :=
  let length := 1024 * ceil1024 data.length
  let offset := s.dataFile.length
  match packRecord offset length accesstime key filetype data.length with
  | none => none
  | some rec =>
    some { s with
      dataFile := s.dataFile ++ (data ++ List.replicate (length - data.length) 0),
      indexFile := s.indexFile ++ rec }

/-- A store whose data file holds only two bytes: exercises `read` past
the end of the data file. -/
def shortStore : LLVFS :=
  { indexFile := [], dataFile := [1, 2], entries := [], keymap := [] }

/-- A fixed 16-byte key reused by two index records. -/
def dupKey : List Nat := List.replicate 16 7

/-- An index holding two records that carry the same key: the first with
exact size 1, the second with exact size 2. -/
def dupIdx : List Nat :=
  packBytes 0 1024 0 dupKey 0 1 ++ packBytes 1024 1024 0 dupKey 0 2

/-- A data file long enough for both records of `dupIdx`. -/
def dupData : List Nat := List.replicate 2048 0

/-! Helper lemmas about the record codec. -/

theorem decodeU32_encodeU32 (n : Nat) (h : n < 2 ^ 32) :
    decodeU32 (encodeU32 n) = n := by
  simp only [decodeU32, encodeU32]
  omega

theorem decodeU16_encodeU16 (n : Nat) (h : n < 2 ^ 16) :
    decodeU16 (encodeU16 n) = n := by
  simp only [decodeU16, encodeU16]
  omega

theorem pack16s_length (k : List Nat) : (pack16s k).length = 16 := by
  simp [pack16s]
  omega

theorem packBytes_length (o l t : Nat) (k : List Nat) (f z : Nat) :
    (packBytes o l t k f z).length = 34 := by
  simp [packBytes, encodeU32, encodeU16, pack16s]
  omega

theorem decodeRecord_packBytes (o l t : Nat) (k : List Nat) (f z : Nat) :
    decodeRecord (packBytes o l t k f z) =
      { offset := decodeU32 (encodeU32 o), length := decodeU32 (encodeU32 l),
        accesstime := decodeU32 (encodeU32 t), key := pack16s k,
        filetype := decodeU16 (encodeU16 f), size := decodeU32 (encodeU32 z) } := by
  have hlen := pack16s_length k
  simp only [packBytes, encodeU32, encodeU16, List.cons_append, List.nil_append,
    List.append_assoc, decodeRecord, RawRecord.mk.injEq, decodeU32, decodeU16]
  refine ⟨trivial, trivial, trivial, ?_, ?_, ?_⟩
  · exact List.take_left' hlen
  · rw [List.drop_left' hlen]
    rfl
  · rw [List.drop_append_eq_append_drop, List.drop_of_length_le (by omega), hlen]
    rfl

theorem iter_unpack_nil (f : Nat) : iter_unpack f [] = [] := by
  cases f <;> rfl

theorem iter_unpack_fuel (f : Nat) : ∀ (g : Nat) (bs : List Nat),
    bs.length ≤ f → bs.length ≤ g → iter_unpack f bs = iter_unpack g bs := by
  induction f with
  | zero =>
    intro g bs h1 _
    have hbs : bs = [] := List.eq_nil_of_length_eq_zero (by omega)
    subst hbs
    simp [iter_unpack_nil]
  | succ f ih =>
    intro g bs h1 h2
    cases bs with
    | nil => simp [iter_unpack_nil]
    | cons b tl =>
      cases g with
      | zero => simp at h2
      | succ g =>
        simp only [iter_unpack]
        congr 1
        apply ih
        · simp at h1 ⊢
          omega
        · simp at h2 ⊢
          omega

theorem iter_unpack_append (f : Nat) : ∀ (I R : List Nat),
    I.length % 34 = 0 → R.length = 34 → I.length + 34 ≤ f →
    iter_unpack f (I ++ R) = iter_unpack f I ++ [decodeRecord R] := by
  induction f with
  | zero =>
    intro I R _ _ hf
    omega
  | succ f ih =>
    intro I R hI hR hf
    cases I with
    | nil =>
      cases R with
      | nil => simp at hR
      | cons r tl =>
        simp only [List.nil_append, iter_unpack, iter_unpack_nil]
        rw [List.take_of_length_le (by omega), List.drop_of_length_le (by omega),
          iter_unpack_nil]
    | cons i tl =>
      have hlen : 34 ≤ (i :: tl).length := by
        have : (i :: tl).length ≠ 0 := by simp
        omega
      have hsplit : (i :: tl) ++ R = i :: (tl ++ R) := rfl
      have h1 : (i :: (tl ++ R)).take 34 = (i :: tl).take 34 := by
        rw [← hsplit, List.take_append_eq_append_take,
          Nat.sub_eq_zero_of_le hlen]
        simp
      have h2 : (i :: (tl ++ R)).drop 34 = (i :: tl).drop 34 ++ R := by
        rw [← hsplit, List.drop_append_eq_append_drop,
          Nat.sub_eq_zero_of_le hlen]
        simp
      rw [hsplit]
      simp only [iter_unpack]
      rw [h1, h2, ih ((i :: tl).drop 34) R
        (by simp only [List.length_drop, List.length_cons] at hI ⊢; omega) hR
        (by simp only [List.length_drop, List.length_cons] at hf ⊢; omega)]
      simp

theorem parseRecords_append (I R : List Nat) (hI : I.length % 34 = 0)
    (hR : R.length = 34) :
    parseRecords (I ++ R) = parseRecords I ++ [decodeRecord R] := by
  unfold parseRecords
  have h34 : (I ++ R).length = I.length + 34 := by simp [hR]
  rw [h34, iter_unpack_append (I.length + 34) I R hI hR (le_refl _)]
  congr 1
  exact iter_unpack_fuel (I.length + 34) I.length I (by omega) (le_refl _)

theorem iter_unpack_length (f : Nat) : ∀ bs : List Nat,
    bs.length ≤ f → bs.length % 34 = 0 →
    (iter_unpack f bs).length * 34 = bs.length := by
  induction f with
  | zero =>
    intro bs h1 _
    have hbs : bs = [] := List.eq_nil_of_length_eq_zero (by omega)
    subst hbs
    simp [iter_unpack_nil]
  | succ f ih =>
    intro bs h1 h2
    cases bs with
    | nil => simp [iter_unpack_nil]
    | cons b tl =>
      have hlen : 34 ≤ (b :: tl).length := by
        have : (b :: tl).length ≠ 0 := by simp
        omega
      simp only [iter_unpack, List.length_cons]
      have hrec := ih ((b :: tl).drop 34)
        (by simp only [List.length_drop, List.length_cons] at h1 ⊢; omega)
        (by simp only [List.length_drop, List.length_cons] at h2 ⊢; omega)
      simp only [List.length_drop] at hrec
      simp only [List.length_cons] at hrec hlen h2
      omega

theorem parseRecords_length (bs : List Nat) (h : bs.length % 34 = 0) :
    (parseRecords bs).length * 34 = bs.length :=
  iter_unpack_length bs.length bs (le_refl _) h

theorem indexOf_cons_beq (a b : List Nat) (l : List (List Nat)) :
    List.indexOf a (b :: l) = if b == a then 0 else List.indexOf a l + 1 := by
  by_cases h : b == a <;> simp [List.indexOf, List.findIdx_cons, h]

theorem lookup_index_eq_find (k : List Nat) : ∀ es : List LLVFSEntry,
    (if k ∈ es.map (fun e => e.key) then
       es[(es.map (fun e => e.key)).indexOf k]?
     else none)
      = es.find? (fun e => e.key == k) := by
  intro es
  induction es with
  | nil => simp
  | cons e tl ih =>
    simp only [List.map_cons, List.find?_cons, indexOf_cons_beq]
    by_cases h : e.key = k
    · simp [h]
    · have hbeq : (e.key == k) = false := by simp [h]
      have hiter : (if (e.key == k) = true then 0
          else List.indexOf k (tl.map (fun e => e.key)) + 1)
          = List.indexOf k (tl.map (fun e => e.key)) + 1 := by
        simp [hbeq]
      rw [hiter]
      simp only [hbeq, cond_false]
      by_cases hm : k ∈ tl.map (fun e => e.key)
      · have hmem : k ∈ e.key :: tl.map (fun e => e.key) :=
          List.mem_cons_of_mem _ hm
        rw [if_pos hmem, List.getElem?_cons_succ, ← ih, if_pos hm]
      · have hmem : ¬ k ∈ e.key :: tl.map (fun e => e.key) := by
          simp only [List.mem_cons]
          push_neg
          exact ⟨fun hh => h hh.symm, hm⟩
        rw [if_neg hmem, ← ih, if_neg hm]

/-! The claims. -/

/-- C2: the claim asks that the observable `length` of an `LLVFSEntry` be a
multiple of 1024 and at least `size` after construction and after every
mutation.  The source's `length` getter returns `self._size`, so for an
entry created with size 5 the observable `length` is 5 — not a multiple of
1024 — even though the internal `_length` backing field is 1024.  This
contradicts the comment in the source right above the property ("Ensure
length stays a multiple of 1024") and its own setter, which writes
`_length`: the getter is a slip. -/
theorem length_getter_returns_size :
    (LLVFSEntry.init 0 5 none (List.replicate 16 0) 0 0).length = 5 ∧
    (LLVFSEntry.init 0 5 none (List.replicate 16 0) 0 0)._length = 1024 ∧
    ¬ (5 % 1024 = 0) := by
  refine ⟨rfl, rfl, by decide⟩

/-- C3: loading an index whose byte length is not a multiple of the 34-byte
record size fails with the CorruptIndex error (Python: the `struct.error`
of `iter_unpack`); no truncated entry list is produced. -/
theorem loadStore_corruptIndex (idx data : List Nat)
    (h : ¬ idx.length % 34 = 0) :
    loadStore idx data = .error .corruptIndex := by
  simp [loadStore, parseIndex, h]

/-- Witness for C3 at the one-byte index `[0]`. -/
theorem loadStore_corruptIndex_witness :
    ¬ ([0] : List Nat).length % 34 = 0 ∧
      loadStore [0] ([] : List Nat) = .error .corruptIndex :=
  ⟨by decide, loadStore_corruptIndex [0] ([] : List Nat) (by decide)⟩

/-- C5 counterexample: on a data file of two bytes, `read(0, 5)` returns
the two available bytes — a byte string SHORTER than the requested size —
and raises no error, contradicting the claim that a short read fails with
a ShortRead error and never returns a shorter byte string. -/
theorem read_returns_short_string :
    shortStore.read 0 5 = [1, 2] ∧
    (shortStore.read 0 5).length = 2 ∧ 2 < 5 := by
  refine ⟨rfl, rfl, by decide⟩

/-- C5 amended: `read(offset, size)` returns exactly `size` bytes when the
data file holds at least `offset + size` bytes, and otherwise silently
returns just the bytes available from `offset` (possibly fewer than
`size`, no error). -/
theorem read_exact_or_all_available (s : LLVFS) (o n : Nat) :
    (o + n ≤ s.dataFile.length → (s.read o n).length = n) ∧
    (s.dataFile.length < o + n → s.read o n = s.dataFile.drop o) := by
  constructor
  · intro h
    simp only [LLVFS.read, List.length_take, List.length_drop]
    omega
  · intro h
    simp only [LLVFS.read]
    apply List.take_of_length_le
    simp only [List.length_drop]
    omega

/-- Witness for C5's amended theorem at the two-byte store. -/
theorem read_exact_or_all_available_witness :
    (0 + 2 ≤ shortStore.dataFile.length → (shortStore.read 0 2).length = 2) ∧
    (shortStore.dataFile.length < 0 + 2 →
      shortStore.read 0 2 = shortStore.dataFile.drop 0) :=
  read_exact_or_all_available shortStore 0 2

/-- C6 counterexample: after `map("k", "p")`, `findPath("k")` is `None`
(not `"p"`) and `findKey("p")` is `None` (not `"k"`): the code's
`findPath` takes a path and returns a key, and `findKey` takes a key and
returns a path — the opposite of the claim's reading. -/
theorem findPath_by_key_misses :
    (PathMap.empty.map "k" "p").findPath "k" = none ∧
    (PathMap.empty.map "k" "p").findKey "p" = none ∧
    ¬ ((none : Option String) = some "p") ∧
    ¬ ((none : Option String) = some "k") := by
  refine ⟨by decide, by decide, by decide, by decide⟩

/-- C6 amended: after `map(k, p)`, the lookups return the mapped
counterpart when called with the side they are actually keyed on:
`findPath(p)` (by PATH) returns `k`, and `findKey(k)` (by KEY) returns
`p`. -/
theorem map_then_lookup_counterparts (m : PathMap) (k p : String) :
    (m.map k p).findPath p = some k ∧ (m.map k p).findKey k = some p := by
  constructor <;> simp [PathMap.map, PathMap.findPath, PathMap.findKey]

/-- C7 counterexample: after `map("k", "p1")` then `map("k", "p2")`, a
lookup with `"p1"` STILL yields `"k"`: `map` only overwrites
`pathMapping[path]` and `keyMapping[key]`, it never deletes the old
association `p1 -> k`, so a stale entry remains and the claimed 1:1
invariant fails. -/
theorem stale_entry_after_remap :
    ((PathMap.empty.map "k" "p1").map "k" "p2").findPath "p1" = some "k" ∧
    ¬ ("p1" = "p2") := by
  refine ⟨by decide, by decide⟩

/-- C7 amended: `map` overwrites the two directly-keyed dict slots but
removes nothing: after `map(k, p1)` then `map(k, p2)`, the forward lookup
`findKey(k)` follows the latest call, while the stale reverse association
`findPath(p1) = k` survives. -/
theorem remap_keeps_stale_reverse (m : PathMap) (k p1 p2 : String) :
    ((m.map k p1).map k p2).findPath p1 = some k ∧
    ((m.map k p1).map k p2).findKey k = some p2 := by
  constructor
  · by_cases h : p1 = p2 <;>
      simp [PathMap.map, PathMap.findPath, h]
  · simp [PathMap.map, PathMap.findKey]

/-- C8: the name-based lookup `AT.LSL_TEXT` (the spec's
`codeNamed("LSL_TEXT")`) returns `cvars.index("LSL_TEXT") = 9`, the
POSITION of the name in registration order — not the registered numeric
code 10 that the table assigns to `LSL_TEXT` (there is no asset type 9 at
all).  The lookup is only correct on the contiguous prefix of codes 0-8;
the spec states the evident intent of a name-to-code lookup, so the code
is the slip. -/
theorem codeNamed_LSL_TEXT_is_position :
    AT.codeNamed "LSL_TEXT" = .ok 9 ∧
    (AT.asset_types.find? (fun p => p.2.description == "LSL_TEXT")).map
      (fun p => p.1) = some 10 ∧
    ¬ ((9 : Nat) = 10) ∧
    AT.codeNamed "NOT_A_TYPE" = .error .unknownAssetType := by
  refine ⟨rfl, by decide, by decide, rfl⟩

/-- C9: the code-to-metadata lookup `AT.__getitem__` is total (it is a
total function in this embedding, mirroring that the Python code never
raises), and every code outside the registry maps to the UNKNOWN sentinel
row, which the table registers at code 255. -/
theorem getitem_total_unknown (k : Int)
    (h : AT.asset_types.lookup k = none) :
    AT.getitem k = ⟨"UNKNOWN", "invalid", none, false, false, false⟩ ∧
    AT.asset_types.lookup (255 : Int) =
      some ⟨"UNKNOWN", "invalid", none, false, false, false⟩ := by
  refine ⟨?_, by decide⟩
  simp only [AT.getitem, h, Option.isSome_none, Bool.false_eq_true, if_false]
  decide

/-- Witness for C9 at code 9 (absent from the table). -/
theorem getitem_total_unknown_witness :
    AT.asset_types.lookup (9 : Int) = none ∧
    (AT.getitem 9 = ⟨"UNKNOWN", "invalid", none, false, false, false⟩ ∧
      AT.asset_types.lookup (255 : Int) =
        some ⟨"UNKNOWN", "invalid", none, false, false, false⟩) :=
  ⟨by decide, getitem_total_unknown 9 (by decide)⟩

/-- C10: writing `size := v` leaves the allocated `_length` unchanged
exactly when `v` does not exceed the current `_length`; an assignment
above the current `_length` always changes it (to the next multiple of
1024, which is at least `v`). -/
theorem setSize_preserves_length_iff (e : LLVFSEntry) (v : Nat) :
    (e.setSize v)._length = e._length ↔ v ≤ e._length := by
  unfold LLVFSEntry.setSize
  by_cases h : e._length < v
  · simp only [h, if_true]
    unfold ceil1024
    constructor
    · intro hh
      omega
    · intro hh
      omega
  · simp only [h, if_false]
    constructor
    · intro _
      omega
    · intro _
      trivial

/-- C4 counterexample: `dupIdx` holds two records with the same key, with
exact sizes 1 and 2 in file order.  Iterating shows both (sizes `[1, 2]`),
but `fromKey` returns the entry of the FIRST record (size 1), not the
last (size 2): Python's `list.index` returns the first position, so the
earlier record wins the keyed lookup. -/
theorem fromKey_returns_first_duplicate :
    ((loadStore dupIdx dupData).toOption.bind
      (fun s => (s.fromKey dupKey).map LLVFSEntry.size)) = some 1 ∧
    ((loadStore dupIdx dupData).toOption.map
      (fun s => s.entries.map LLVFSEntry.size)) = some [1, 2] ∧
    ¬ ((1 : Nat) = 2) := by
  refine ⟨by decide, by decide, by decide⟩

/-- C4 amended: for a store loaded from any well-formed index, iterating
yields every record in file order (the entry list accounts for the whole
index, 34 bytes per record, in order), and `fromKey` returns the entry
decoded from the FIRST record bearing the key. -/
theorem loaded_fromKey_first (idx data k : List Nat)
    (h : idx.length % 34 = 0) :
    ∃ s, loadStore idx data = .ok s ∧
      s.entries = (parseRecords idx).map recToEntry ∧
      s.entries.length * 34 = idx.length ∧
      s.fromKey k = s.entries.find? (fun e => e.key == k) := by
  have hload : loadStore idx data = .ok
      { indexFile := idx, dataFile := data,
        entries := (parseRecords idx).map recToEntry,
        keymap := (parseRecords idx).map (fun r => r.key) } := by
    simp [loadStore, parseIndex, h]
  refine ⟨_, hload, rfl, ?_, ?_⟩
  · simp only [List.length_map]
    exact parseRecords_length idx h
  · show (if k ∈ (parseRecords idx).map (fun r => r.key) then
        ((parseRecords idx).map recToEntry)[((parseRecords idx).map
          (fun r => r.key)).indexOf k]?
      else none) = _
    have hmm : (parseRecords idx).map (fun r => r.key)
        = ((parseRecords idx).map recToEntry).map (fun e => e.key) := by
      rw [List.map_map]
      rfl
    rw [hmm]
    exact lookup_index_eq_find k _

/-- Witness for C4's amended theorem at the duplicate-key index. -/
theorem loaded_fromKey_first_witness :
    dupIdx.length % 34 = 0 ∧
    (∃ s, loadStore dupIdx dupData = .ok s ∧
      s.entries = (parseRecords dupIdx).map recToEntry ∧
      s.entries.length * 34 = dupIdx.length ∧
      s.fromKey dupKey = s.entries.find? (fun e => e.key == dupKey)) :=
  ⟨by decide, loaded_fromKey_first dupIdx dupData dupKey (by decide)⟩

/-- C1: appending a payload with `add` on a write-mode store (any store
state whose index is a whole number of records), then reloading a store
from the resulting index/data file contents, and reading at the loaded
entry's recorded offset and size returns exactly the payload — the zero
padding written after it is not included.  The size hypotheses are the
u32/u16 ranges `struct.pack` itself enforces. -/
theorem add_reload_read_roundtrip (s : LLVFS) (key : List Nat)
    (filetype accesstime : Nat) (P : List Nat)
    (hidx : s.indexFile.length % 34 = 0)
    (hoff : s.dataFile.length < 2 ^ 32)
    (hP : P.length + 1024 ≤ 2 ^ 32)
    (ht : accesstime < 2 ^ 32)
    (hft : filetype < 2 ^ 16) :
    ∃ s2, s.add key filetype P accesstime = some s2 ∧
    ∃ s3, loadStore s2.indexFile s2.dataFile = .ok s3 ∧
    ∃ e, s3.entries.getLast? = some e ∧
      e.offset = s.dataFile.length ∧ e.size = P.length ∧
      s3.read e.offset e.size = P := by
  have hlen32 : 1024 * ceil1024 P.length < 2 ^ 32 := by
    unfold ceil1024
    omega
  have hsz32 : P.length < 2 ^ 32 := by omega
  have hcond : s.dataFile.length < 2 ^ 32 ∧
      1024 * ceil1024 P.length < 2 ^ 32 ∧ accesstime < 2 ^ 32 ∧
      filetype < 2 ^ 16 ∧ P.length < 2 ^ 32 :=
    ⟨hoff, hlen32, ht, hft, hsz32⟩
  have hpack : packRecord s.dataFile.length (1024 * ceil1024 P.length)
      accesstime key filetype P.length =
      some (packBytes s.dataFile.length (1024 * ceil1024 P.length)
        accesstime key filetype P.length) := by
    unfold packRecord
    rw [if_pos hcond]
  have hadd : s.add key filetype P accesstime = some
      { s with
        dataFile := s.dataFile ++
          (P ++ List.replicate (1024 * ceil1024 P.length - P.length) 0),
        indexFile := s.indexFile ++ packBytes s.dataFile.length
          (1024 * ceil1024 P.length) accesstime key filetype P.length } := by
    simp only [LLVFS.add, hpack]
  refine ⟨_, hadd, ?_⟩
  have hRlen : (packBytes s.dataFile.length (1024 * ceil1024 P.length)
      accesstime key filetype P.length).length = 34 :=
    packBytes_length _ _ _ _ _ _
  have hidx2 : (s.indexFile.length + (packBytes s.dataFile.length
      (1024 * ceil1024 P.length) accesstime key filetype P.length).length)
      % 34 = 0 := by
    rw [hRlen]
    omega
  have hload : loadStore
      (s.indexFile ++ packBytes s.dataFile.length
        (1024 * ceil1024 P.length) accesstime key filetype P.length)
      (s.dataFile ++
        (P ++ List.replicate (1024 * ceil1024 P.length - P.length) 0)) =
      .ok { indexFile := s.indexFile ++ packBytes s.dataFile.length
              (1024 * ceil1024 P.length) accesstime key filetype P.length,
            dataFile := s.dataFile ++
              (P ++ List.replicate (1024 * ceil1024 P.length - P.length) 0),
            entries := (parseRecords (s.indexFile ++ packBytes
              s.dataFile.length (1024 * ceil1024 P.length) accesstime key
              filetype P.length)).map recToEntry,
            keymap := (parseRecords (s.indexFile ++ packBytes
              s.dataFile.length (1024 * ceil1024 P.length) accesstime key
              filetype P.length)).map (fun r => r.key) } := by
    simp [loadStore, parseIndex, hidx2]
  refine ⟨_, hload, ?_⟩
  have hparse : parseRecords (s.indexFile ++ packBytes s.dataFile.length
      (1024 * ceil1024 P.length) accesstime key filetype P.length) =
      parseRecords s.indexFile ++ [decodeRecord (packBytes s.dataFile.length
        (1024 * ceil1024 P.length) accesstime key filetype P.length)] :=
    parseRecords_append _ _ hidx hRlen
  have hdec : decodeRecord (packBytes s.dataFile.length
      (1024 * ceil1024 P.length) accesstime key filetype P.length) =
      { offset := s.dataFile.length, length := 1024 * ceil1024 P.length,
        accesstime := accesstime, key := pack16s key,
        filetype := filetype, size := P.length } := by
    rw [decodeRecord_packBytes]
    rw [decodeU32_encodeU32 _ hoff, decodeU32_encodeU32 _ hlen32,
      decodeU32_encodeU32 _ ht, decodeU16_encodeU16 _ hft,
      decodeU32_encodeU32 _ hsz32]
  refine ⟨recToEntry (decodeRecord (packBytes s.dataFile.length
    (1024 * ceil1024 P.length) accesstime key filetype P.length)),
    ?_, ?_, ?_, ?_⟩
  · show ((parseRecords (s.indexFile ++ packBytes s.dataFile.length
      (1024 * ceil1024 P.length) accesstime key filetype
      P.length)).map recToEntry).getLast? = _
    rw [hparse, List.map_append]
    exact List.getLast?_concat _
  · rw [hdec]
    rfl
  · rw [hdec]
    rfl
  · show ((s.dataFile ++
      (P ++ List.replicate (1024 * ceil1024 P.length - P.length) 0)).drop
        _).take _ = P
    rw [hdec]
    show ((s.dataFile ++
      (P ++ List.replicate (1024 * ceil1024 P.length - P.length) 0)).drop
        s.dataFile.length).take P.length = P
    rw [List.drop_left' rfl, List.take_left' rfl]

/-- Witness for C1: a fresh write-mode store, payload `[65, 66, 67]`. -/
theorem add_reload_read_roundtrip_witness :
    (LLVFS.initWrite.indexFile.length % 34 = 0 ∧
     LLVFS.initWrite.dataFile.length < 2 ^ 32 ∧
     ([65, 66, 67] : List Nat).length + 1024 ≤ 2 ^ 32 ∧
     (0 : Nat) < 2 ^ 32 ∧ (10 : Nat) < 2 ^ 16) ∧
    (∃ s2, LLVFS.initWrite.add (List.replicate 16 9) 10 [65, 66, 67] 0
        = some s2 ∧
     ∃ s3, loadStore s2.indexFile s2.dataFile = .ok s3 ∧
     ∃ e, s3.entries.getLast? = some e ∧
       e.offset = LLVFS.initWrite.dataFile.length ∧
       e.size = ([65, 66, 67] : List Nat).length ∧
       s3.read e.offset e.size = [65, 66, 67]) :=
  ⟨⟨by decide, by decide, by decide, by decide, by decide⟩,
   add_reload_read_roundtrip LLVFS.initWrite (List.replicate 16 9) 10 0
     [65, 66, 67] (by decide) (by decide) (by decide) (by decide) (by decide)⟩
